import Mathlib

/-
Verification of the reconciliation core of the giantswarm/operator-workshop
repository.  The Go source is shallowly embedded: every pure decision
function becomes a Lean function, the database backend (an external SQL
server reached through database/sql) becomes an explicit state machine
threaded through the operations, and fallible Go calls (value, error)
become Except String values.  Statuses returned as fixed strings in Go are
embedded as an inductive type whose constructors are documented with the
exact source string they stand for.
-/

namespace OperatorWorkshop

/-- Database as reported by the operations port (postgresqlops.Database /
mysqlops.Database): a name and the owner reported for it. -/
structure Database where
  name : String
  owner : String
deriving DecidableEq

/-- PostgreSQLConfigSpec (solution1.go / customobject): the desired record,
a database name and an owner. -/
structure PostgreSQLConfigSpec where
  database : String
  owner : String
deriving DecidableEq

/-- PostgreSQLConfig (solution1.go / customobject): the custom object,
carrying only its spec. -/
structure PostgreSQLConfig where
  spec : PostgreSQLConfigSpec
deriving DecidableEq

/-- PostgreSQLConfigSpec.Validate (solution1.go lines 73-81): empty database
or owner is rejected, checked in this order. -/
def PostgreSQLConfigSpec.validate (s : PostgreSQLConfigSpec) : Except String Unit :=
  if s.database == "" then .error "database is not set"
  else if s.owner == "" then .error "owner is not set"
  else .ok ()

/-- PostgreSQLConfig.Validate (solution1.go lines 56-61): wraps the spec
validation error. -/
def PostgreSQLConfig.validate (m : PostgreSQLConfig) : Except String Unit :=
  match m.spec.validate with
  | .error e => .error ("spec is not valid: " ++ e)
  | .ok _ => .ok ()

/-- customobject.Validate (customobject/validate.go): same checks as the
method on PostgreSQLConfig, used by solution3. -/
def Validate (obj : PostgreSQLConfig) : Except String Unit :=
  obj.validate

/-- Reconciliation status strings returned by the Go code, one constructor
per distinct return point:
databaseCreated = "database created",
ownerChanged old = the owner-changed message carrying the previous owner,
alreadyCreated = "already created" (customobject/resource.go),
databaseDeleted = "database deleted",
alreadyDeleted = "already deleted" (customobject/resource.go),
alreadyReconciled = "already reconcilied" (solution1.go, solution2.go,
the mysql poll variant). -/
inductive Status where
  | databaseCreated
  | ownerChanged (old : String)
  | alreadyCreated
  | databaseDeleted
  | alreadyDeleted
  | alreadyReconciled
deriving DecidableEq

/-- The database operations port.  In Go this is the method set of a
concrete handle (PostgreSQLOps, MySQLOps) whose behaviour depends on the
external database server; here each method is a state transformer over the
server state sigma returning the Go (error) result. -/
structure Ops (σ : Type) where
  listDatabases : σ → Except String (List Database) × σ
  createDatabase : String → String → σ → Except String Unit × σ
  changeDatabaseOwner : String → String → σ → Except String Unit × σ
  deleteDatabase : String → σ → Except String Unit × σ

/-- findDB (customobject/resource.go lines 72-79): first database whose
name matches, if any. -/
def findDB : List Database → String → Option Database
  | [], _ => none
  | db :: dbs, name => if db.name == name then some db else findDB dbs name

/-- Loop of solution1.go processUpdate lines 415-421: first match kept in
foundDB, otherwise the zero value with empty fields. -/
def findDBDefault : List Database → String → Database
  | [], _ => { name := "", owner := "" }
  | db :: dbs, name => if db.name == name then db else findDBDefault dbs name

/-- Resource.EnsureCreated (customobject/resource.go lines 24-49): list the
databases, create on no match, change the owner on an owner mismatch,
report already created otherwise.  Go error wrapping via fmt.Errorf is
embedded as a string prefix (the %#q interpolation of the old owner in the
owner-change error is dropped, the prefix keeps the source typo). -/
def ensureCreated {σ : Type} (ops : Ops σ) (obj : PostgreSQLConfig) (s : σ) :
    Except String Status × σ :=
  match ops.listDatabases s with
  | (.error e, s1) => (.error ("listing databases: " ++ e), s1)
  | (.ok dbs, s1) =>
    match findDB dbs obj.spec.database with
    | none =>
      match ops.createDatabase obj.spec.database obj.spec.owner s1 with
      | (.error e, s2) => (.error ("creating database: " ++ e), s2)
      | (.ok _, s2) => (.ok .databaseCreated, s2)
    | some db =>
      if db.owner != obj.spec.owner then
        match ops.changeDatabaseOwner obj.spec.database obj.spec.owner s1 with
        | (.error e, s2) => (.error ("chaning owner: " ++ e), s2)
        | (.ok _, s2) => (.ok (.ownerChanged db.owner), s2)
      else (.ok .alreadyCreated, s1)

/-- Resource.EnsureDeleted (customobject/resource.go lines 53-70): list the
databases, delete on a match, report already deleted otherwise. -/
def ensureDeleted {σ : Type} (ops : Ops σ) (obj : PostgreSQLConfig) (s : σ) :
    Except String Status × σ :=
  match ops.listDatabases s with
  | (.error e, s1) => (.error ("listing databases: " ++ e), s1)
  | (.ok dbs, s1) =>
    match findDB dbs obj.spec.database with
    | some _ =>
      match ops.deleteDatabase obj.spec.database s1 with
      | (.error e, s2) => (.error ("deleting database: " ++ e), s2)
      | (.ok _, s2) => (.ok .databaseDeleted, s2)
    | none => (.ok .alreadyDeleted, s1)

/-- processUpdate (solution1.go lines 409-440; the mysql poll variant has
the identical function over its record shape): like EnsureCreated but the
no-match test is foundDB.Name == "" on the zero value. -/
def processUpdate {σ : Type} (ops : Ops σ) (obj : PostgreSQLConfig) (s : σ) :
    Except String Status × σ :=
  match ops.listDatabases s with
  | (.error e, s1) => (.error ("listing databases: " ++ e), s1)
  | (.ok dbs, s1) =>
    let foundDB := findDBDefault dbs obj.spec.database
    if foundDB.name == "" then
      match ops.createDatabase obj.spec.database obj.spec.owner s1 with
      | (.error e, s2) => (.error ("creating database: " ++ e), s2)
      | (.ok _, s2) => (.ok .databaseCreated, s2)
    else if foundDB.owner != obj.spec.owner then
      match ops.changeDatabaseOwner obj.spec.database obj.spec.owner s1 with
      | (.error e, s2) => (.error ("chaning owner: " ++ e), s2)
      | (.ok _, s2) => (.ok (.ownerChanged foundDB.owner), s2)
    else (.ok .alreadyReconciled, s1)

/-- processDelete (solution1.go lines 442-465): list, delete on a name
match, report already reconciled otherwise. -/
def processDelete {σ : Type} (ops : Ops σ) (obj : PostgreSQLConfig) (s : σ) :
    Except String Status × σ :=
  match ops.listDatabases s with
  | (.error e, s1) => (.error ("listing databases: " ++ e), s1)
  | (.ok dbs, s1) =>
    if dbs.any (fun db => db.name == obj.spec.database) then
      match ops.deleteDatabase obj.spec.database s1 with
      | (.error e, s2) => (.error ("deleting database: " ++ e), s2)
      | (.ok _, s2) => (.ok .databaseDeleted, s2)
    else (.ok .alreadyReconciled, s1)

/-! The PostgreSQL backend (postgresqlops/postgresqlops.go).  The handle
issues fixed SQL statements against an external PostgreSQL server; the
server is modelled by PGState and the documented semantics of exactly the
statements the source issues. -/

/-- SQL statements executed (Exec) by postgresqlops.go.  createDatabase
carries only the name because the issued statement is
CREATE DATABASE "name" with no OWNER clause (line 68). -/
inductive SQLStmt where
  | createUser (user : String)
  | createDatabase (name : String)
  | alterDatabaseOwner (name owner : String)
  | dropDatabase (name : String)
deriving DecidableEq

/-- State of the PostgreSQL server: the user the handle is connected as
(Config.User), the existing users, the non-system databases with their
owners (the rows ListDatabases reports), and the statements executed so
far, oldest first. -/
structure PGState where
  connUser : String
  users : List String
  dbs : List Database
  log : List SQLStmt
deriving DecidableEq

/-- Documented PostgreSQL semantics of the four statements the source
issues: CREATE USER adds the user; CREATE DATABASE with no OWNER clause
creates the database owned by the executing (connection) user; ALTER
DATABASE OWNER TO rewrites the owner; DROP DATABASE removes the database.
Every executed statement is appended to the log. -/
def pgExec (stmt : SQLStmt) (s : PGState) : PGState :=
  match stmt with
  | .createUser u =>
    { s with users := s.users ++ [u], log := s.log ++ [stmt] }
  | .createDatabase n =>
    { s with dbs := s.dbs ++ [{ name := n, owner := s.connUser }],
             log := s.log ++ [stmt] }
  | .alterDatabaseOwner n o =>
    { s with dbs := s.dbs.map (fun db => if db.name == n then { db with owner := o } else db),
             log := s.log ++ [stmt] }
  | .dropDatabase n =>
    { s with dbs := s.dbs.filter (fun db => !(db.name == n)),
             log := s.log ++ [stmt] }

/-- hasUser (postgresqlops.go lines 166-188): scans pg_user for the name. -/
def hasUser (name : String) (s : PGState) : Bool :=
  s.users.any (fun u => u == name)

/-- hasDatabase (postgresqlops.go lines 141-154): scans the ListDatabases
rows for the name. -/
def hasDatabase (name : String) (s : PGState) : Bool :=
  s.dbs.any (fun db => db.name == name)

/-- ListDatabases (postgresqlops.go lines 117-139): the non-system
databases joined with their owner user. -/
def pgListDatabases (s : PGState) : Except String (List Database) × PGState :=
  (.ok s.dbs, s)

/-- CreateDatabase (postgresqlops.go lines 54-76): create the owner user if
missing (the createUser error is discarded by the source, line 60), then
CREATE DATABASE with no OWNER clause if the database is missing. -/
def pgCreateDatabase (name owner : String) (s : PGState) : Except String Unit × PGState :=
  let s1 := if hasUser owner s then s else pgExec (.createUser owner) s
  if hasDatabase name s1 then (.ok (), s1)
  else (.ok (), pgExec (.createDatabase name) s1)

/-- ChangeDatabaseOwner (postgresqlops.go lines 80-96): create the owner
user if missing, then ALTER DATABASE OWNER TO.  The source issues the ALTER
unconditionally; the server rejects it when the database does not exist,
which the source returns wrapped, so the model returns the wrapped error in
that case. -/
def pgChangeDatabaseOwner (name owner : String) (s : PGState) : Except String Unit × PGState :=
  let s1 := if hasUser owner s then s else pgExec (.createUser owner) s
  if hasDatabase name s1 then (.ok (), pgExec (.alterDatabaseOwner name owner) s1)
  else (.error "changing owner: database does not exist", s1)

/-- DeleteDatabase (postgresqlops.go lines 99-114): DROP DATABASE only if
the database exists. -/
def pgDeleteDatabase (name : String) (s : PGState) : Except String Unit × PGState :=
  if hasDatabase name s then (.ok (), pgExec (.dropDatabase name) s)
  else (.ok (), s)

/-- The PostgreSQLOps method set as an operations port instance. -/
def pgOps : Ops PGState :=
  { listDatabases := pgListDatabases
    createDatabase := pgCreateDatabase
    changeDatabaseOwner := pgChangeDatabaseOwner
    deleteDatabase := pgDeleteDatabase }

/-! The MySQL backend of the mysql variant (package mysqlops, SQL
implementation): CREATE DATABASE IF NOT EXISTS ignores the owner argument,
ChangeDatabaseOwner returns nil doing nothing, ListDatabases scans only the
names from SHOW DATABASES leaving Owner at its zero value. -/

/-- State of the MySQL server: the database names SHOW DATABASES reports. -/
structure MySQLState where
  dbNames : List String
deriving DecidableEq

/-- mysqlops CreateDatabase: CREATE DATABASE IF NOT EXISTS, the owner
argument is unused by the source. -/
def myCreateDatabase (name : String) (_owner : String) (s : MySQLState) :
    Except String Unit × MySQLState :=
  if s.dbNames.any (fun n => n == name) then (.ok (), s)
  else (.ok (), { dbNames := s.dbNames ++ [name] })

/-- mysqlops ChangeDatabaseOwner (lines 199-201): returns nil without
issuing any statement. -/
def myChangeDatabaseOwner (_name : String) (_owner : String) (s : MySQLState) :
    Except String Unit × MySQLState :=
  (.ok (), s)

/-- mysqlops DeleteDatabase: DROP DATABASE, which the server rejects when
the database is absent; the source wraps that error. -/
def myDeleteDatabase (name : String) (s : MySQLState) : Except String Unit × MySQLState :=
  if s.dbNames.any (fun n => n == name) then
    (.ok (), { dbNames := s.dbNames.filter (fun n => !(n == name)) })
  else (.error "deleting database: database does not exist", s)

/-- mysqlops ListDatabases (lines 215-237): every row carries only the
name; the Owner field stays at its zero value, the empty string. -/
def myListDatabases (s : MySQLState) : Except String (List Database) × MySQLState :=
  (.ok (s.dbNames.map (fun n => { name := n, owner := "" })), s)

/-- The MySQLOps method set as an operations port instance. -/
def myOps : Ops MySQLState :=
  { listDatabases := myListDatabases
    createDatabase := myCreateDatabase
    changeDatabaseOwner := myChangeDatabaseOwner
    deleteDatabase := myDeleteDatabase }

/-! The poll-mode reconciliation cycle of solution1.go (mainError lines
306-406; the mysql poll variant has the identical control flow).  One
cycle: list the desired records over HTTP, list the databases, reconcile
each valid record, then delete the databases no valid record references. -/

/-- Outcome of listing the desired records over HTTP in one cycle:
transportError is k8sClient.Get returning an error (line 315), badStatus a
non-200 response (line 323), badBody a JSON decoding failure (line 330),
ok the decoded item list. -/
inductive ListDesiredResult where
  | transportError (e : String)
  | badStatus (code : Nat)
  | badBody (e : String)
  | ok (items : List PostgreSQLConfig)

/-- How one cycle of the loop ends: fatal is mainError returning an error
(the loop function exits and the process exits non-zero), retry is a
logged failure followed by sleep and the next iteration, done is a fully
executed cycle. -/
inductive CycleResult (σ : Type) where
  | fatal (e : String)
  | retry (s : σ)
  | done (s : σ)
deriving DecidableEq

/-- Update phase of the cycle (solution1.go lines 348-366): walk the items,
skip records that fail validation (logged only, no port call, not kept),
collect the valid records and run processUpdate on each; a processUpdate
error is logged and does not stop the walk. -/
def processItems {σ : Type} (ops : Ops σ) :
    List PostgreSQLConfig → σ → σ × List PostgreSQLConfig
  | [], s => (s, [])
  | obj :: rest, s =>
    match obj.validate with
    | .error _ => processItems ops rest s
    | .ok _ =>
      let s1 := (processUpdate ops obj s).2
      let (s2, objs) := processItems ops rest s1
      (s2, obj :: objs)

/-- Inner loop of the orphan deletion phase (solution1.go lines 377-382):
whether some valid record of this cycle references the database name. -/
def keepB (validObjs : List PostgreSQLConfig) (db : Database) : Bool :=
  validObjs.any (fun obj => obj.spec.database == db.name)

/-- Orphan deletion phase (solution1.go lines 373-403): walk the database
snapshot listed at the start of the cycle; for each database no valid
record references, synthesize a record from its own name and owner and run
processDelete; errors are logged and do not stop the walk. -/
def orphanPass {σ : Type} (ops : Ops σ) :
    List Database → List PostgreSQLConfig → σ → σ
  | [], _, s => s
  | db :: rest, validObjs, s =>
    if keepB validObjs db then orphanPass ops rest validObjs s
    else
      orphanPass ops rest validObjs
        (processDelete ops { spec := { database := db.name, owner := db.owner } } s).2

/-- One poll cycle (solution1.go lines 306-406): a transport error listing
the desired records makes mainError return (line 317); a bad status or an
undecodable body aborts the cycle; a database listing failure aborts the
cycle (lines 339-344); otherwise the update phase runs and then the orphan
deletion phase over the snapshot listed before the update phase. -/
def cycle {σ : Type} (ops : Ops σ) (lr : ListDesiredResult) (s : σ) : CycleResult σ :=
  match lr with
  | .transportError e => .fatal ("reconciling: " ++ e)
  | .badStatus _ => .retry s
  | .badBody _ => .retry s
  | .ok items =>
    match ops.listDatabases s with
    | (.error _, s1) => .retry s1
    | (.ok dbs, s1) =>
      let (s2, validObjs) := processItems ops items s1
      .done (orphanPass ops dbs validObjs s2)

/-! The stream-mode loop of solution2.go (mainError lines 270-328).  The
watcher is created once before the loop; the loop selects on the context
and the watch channel. -/

/-- MySQLConfigSpec (solution2.go lines 61-71). -/
structure MySQLConfigSpec2 where
  service : String
  port : Int
  database : String
  owner : String
deriving DecidableEq

/-- MySQLConfig (solution2.go lines 44-49). -/
structure MySQLConfig2 where
  spec : MySQLConfigSpec2
deriving DecidableEq

/-- MySQLConfigSpec.Validate (solution2.go lines 73-87). -/
def MySQLConfigSpec2.validate (s : MySQLConfigSpec2) : Except String Unit :=
  if s.service == "" then .error "service is not set"
  else if s.port == 0 then .error "port is not set"
  else if s.database == "" then .error "database is not set"
  else if s.owner == "" then .error "owner is not set"
  else .ok ()

/-- MySQLConfig.Validate (solution2.go lines 51-56). -/
def MySQLConfig2.validate (m : MySQLConfig2) : Except String Unit :=
  match m.spec.validate with
  | .error e => .error ("spec is not valid: " ++ e)
  | .ok _ => .ok ()

/-- A value received from the watch channel: the event type string
("ADDED", "MODIFIED", "DELETED", ...) and the decoded object; object none
embeds a payload that is not a MySQLConfig, for which the type assertion
of solution2.go line 296 fails. -/
structure WatchEvent where
  type : String
  object : Option MySQLConfig2
deriving DecidableEq

/-- One wakeup of the select in the loop: either the context is done
(cancellation) or the watch channel yields a value. -/
inductive LoopInput where
  | cancelled
  | recv (e : WatchEvent)
deriving DecidableEq

/-- How the stream loop ends on a given input prefix: stoppedOk is the
return nil on cancellation (line 294), fatal is mainError returning an
error, running means the prefix was consumed with the loop still live. -/
inductive LoopResult (σ : Type) where
  | stoppedOk (s : σ)
  | fatal (e : String) (s : σ)
  | running (s : σ)
deriving DecidableEq

/-- Receiving from the watch channel after the stream closed: a closed Go
channel yields the zero value, the event with empty type and nil object. -/
def closedChanRead : LoopInput :=
  .recv { type := "", object := none }

/-- processUpdate (solution2.go lines 330-372): same decision as the poll
variants, over the stream-mode record type. -/
def processUpdateSol2 {σ : Type} (ops : Ops σ) (obj : MySQLConfig2) (s : σ) :
    Except String Status × σ :=
  match ops.listDatabases s with
  | (.error e, s1) => (.error ("listing databases: " ++ e), s1)
  | (.ok dbs, s1) =>
    let foundDB := findDBDefault dbs obj.spec.database
    if foundDB.name == "" then
      match ops.createDatabase obj.spec.database obj.spec.owner s1 with
      | (.error e, s2) => (.error ("creating database: " ++ e), s2)
      | (.ok _, s2) => (.ok .databaseCreated, s2)
    else if foundDB.owner != obj.spec.owner then
      match ops.changeDatabaseOwner obj.spec.database obj.spec.owner s1 with
      | (.error e, s2) => (.error ("chaning owner: " ++ e), s2)
      | (.ok _, s2) => (.ok (.ownerChanged foundDB.owner), s2)
    else (.ok .alreadyReconciled, s1)

/-- processDelete (solution2.go lines 374-408): delete when the zero-value
find located the database. -/
def processDeleteSol2 {σ : Type} (ops : Ops σ) (obj : MySQLConfig2) (s : σ) :
    Except String Status × σ :=
  match ops.listDatabases s with
  | (.error e, s1) => (.error ("listing databases: " ++ e), s1)
  | (.ok dbs, s1) =>
    let foundDB := findDBDefault dbs obj.spec.database
    if foundDB.name != "" then
      match ops.deleteDatabase obj.spec.database s1 with
      | (.error e, s2) => (.error ("deleting database: " ++ e), s2)
      | (.ok _, s2) => (.ok .databaseDeleted, s2)
    else (.ok .alreadyReconciled, s1)

/-- The stream-mode event loop of solution2.go (lines 287-325) run over a
finite prefix of channel wakeups.  The watcher is created once before the
loop and no Subscribe happens inside it: a payload failing the type
assertion (in particular the zero event a closed channel yields) makes
mainError return an error (line 298); an invalid record is skipped; Added
and Modified dispatch processUpdate, Deleted dispatches processDelete, an
unknown type is logged and skipped. -/
def eventLoop {σ : Type} (ops : Ops σ) : List LoopInput → σ → LoopResult σ
  | [], s => .running s
  | .cancelled :: _, s => .stoppedOk s
  | .recv ev :: rest, s =>
    match ev.object with
    | none => .fatal "wrong type" s
    | some obj =>
      match obj.validate with
      | .error _ => eventLoop ops rest s
      | .ok _ =>
        if ev.type == "ADDED" || ev.type == "MODIFIED" then
          eventLoop ops rest (processUpdateSol2 ops obj s).2
        else if ev.type == "DELETED" then
          eventLoop ops rest (processDeleteSol2 ops obj s).2
        else eventLoop ops rest s

/-! The operatorkit-based stream handlers of solution3 (lines 168-202).
The source validates the record and logs a failure, but has no early
return: EnsureCreated and EnsureDeleted run unconditionally. -/

/-- onUpdateFunc (solution3 lines 168-184): the validation result is only
logged — control falls through to EnsureCreated even for an invalid
record. -/
def onUpdateFunc {σ : Type} (ops : Ops σ) (obj : PostgreSQLConfig) (s : σ) : σ :=
  let _ := Validate obj
  (ensureCreated ops obj s).2

/-- onDeleteFunc (solution3 lines 186-202): the validation result is only
logged — control falls through to EnsureDeleted even for an invalid
record. -/
def onDeleteFunc {σ : Type} (ops : Ops σ) (obj : PostgreSQLConfig) (s : σ) : σ :=
  let _ := Validate obj
  (ensureDeleted ops obj s).2

/-! Auxiliary definitions used by the verification. -/

/-- Names of the snapshot databases no valid record of the cycle
references: exactly the databases the orphan deletion phase targets. -/
def orphanNames (validObjs : List PostgreSQLConfig) (snap : List Database) : List String :=
  (snap.filter (fun db => !(keepB validObjs db))).map Database.name

/-- A fresh PostgreSQL server as the workshop setup provides it: the handle
is connected as the postgres superuser and no managed database exists. -/
def pgInit : PGState :=
  { connUser := "postgres", users := ["postgres"], dbs := [], log := [] }

/-- A backend whose connection is down: every port call fails with the
given error. -/
def errOps (e : String) : Ops Unit :=
  { listDatabases := fun s => (.error e, s)
    createDatabase := fun _ _ s => (.error e, s)
    changeDatabaseOwner := fun _ _ s => (.error e, s)
    deleteDatabase := fun _ s => (.error e, s) }

/-- A backend that lists an empty database set but rejects every mutation
with the error "boom". -/
def createFailOps : Ops Unit :=
  { listDatabases := fun s => (.ok [], s)
    createDatabase := fun _ _ s => (.error "boom", s)
    changeDatabaseOwner := fun _ _ s => (.error "boom", s)
    deleteDatabase := fun _ s => (.error "boom", s) }

/-! Helper lemmas. -/

/-- findDB succeeds exactly when some listed database carries the name. -/
theorem findDB_isSome (dbs : List Database) (n : String) :
    (findDB dbs n).isSome = dbs.any (fun db => db.name == n) := by
  induction dbs with
  | nil => rfl
  | cons db rest ih =>
    simp only [findDB, List.any_cons]
    by_cases h : (db.name == n) = true
    · simp [h]
    · simp [Bool.not_eq_true] at h
      simp [h, ih]

/-- findDB over an appended list takes the first half when it matches. -/
theorem findDB_append (l1 l2 : List Database) (n : String) :
    findDB (l1 ++ l2) n = (findDB l1 n).or (findDB l2 n) := by
  induction l1 with
  | nil => simp [findDB, Option.or]
  | cons db rest ih =>
    by_cases h : (db.name == n) = true
    · simp [findDB, h, Option.or]
    · simp [Bool.not_eq_true] at h
      simp [findDB, h, ih]

/-- processDelete against the PostgreSQL model: drop exactly when a listed
database carries the name, otherwise report already reconciled without
touching the server. -/
theorem processDelete_pg (obj : PostgreSQLConfig) (s : PGState) :
    processDelete pgOps obj s =
      if s.dbs.any (fun db => db.name == obj.spec.database) then
        (.ok .databaseDeleted, pgExec (.dropDatabase obj.spec.database) s)
      else (.ok .alreadyReconciled, s) := by
  cases h : s.dbs.any (fun db => db.name == obj.spec.database) with
  | true =>
    simp only [processDelete, pgOps, pgListDatabases, pgDeleteDatabase, hasDatabase, h, if_true]
  | false =>
    simp only [processDelete, pgOps, pgListDatabases, pgDeleteDatabase, hasDatabase, h,
      Bool.false_eq_true, if_false]

/-- Database set left by the orphan deletion phase against the PostgreSQL
model: the databases whose name is not the name of an unreferenced
snapshot entry, for any starting server state. -/
theorem orphanPass_pg_dbs (snap : List Database) (validObjs : List PostgreSQLConfig) :
    ∀ s : PGState, (orphanPass pgOps snap validObjs s).dbs =
      s.dbs.filter (fun db => !((orphanNames validObjs snap).contains db.name)) := by
  induction snap with
  | nil =>
    intro s
    simp [orphanPass, orphanNames, List.filter_true]
  | cons db rest ih =>
    intro s
    by_cases hk : keepB validObjs db = true
    · simp only [orphanPass, hk, if_true]
      rw [ih]
      have hnames : orphanNames validObjs (db :: rest) = orphanNames validObjs rest := by
        simp [orphanNames, List.filter_cons, hk]
      rw [hnames]
    · simp only [Bool.not_eq_true] at hk
      simp only [orphanPass, hk, Bool.false_eq_true, if_false]
      rw [ih, processDelete_pg]
      have hnames : orphanNames validObjs (db :: rest) = db.name :: orphanNames validObjs rest := by
        simp [orphanNames, List.filter_cons, hk]
      rw [hnames]
      cases hp : s.dbs.any (fun d => d.name == db.name) with
      | true =>
        simp only [hp, if_true, pgExec]
        rw [List.filter_filter]
        apply List.filter_congr
        intro d _
        simp only [List.contains_cons, Bool.not_or]
        rw [Bool.and_comm]
      | false =>
        simp only [hp, Bool.false_eq_true, if_false]
        apply List.filter_congr
        intro d hd
        have hne : (d.name == db.name) = false := by
          rw [List.any_eq_false] at hp
          simpa using hp d hd
        simp only [List.contains_cons, hne, Bool.false_or]

/-- Every record the update phase keeps comes from the item list and passed
validation. -/
theorem processItems_mem {σ : Type} (ops : Ops σ) (items : List PostgreSQLConfig) :
    ∀ (s : σ) (obj : PostgreSQLConfig),
      obj ∈ (processItems ops items s).2 → obj ∈ items ∧ obj.validate = .ok () := by
  induction items with
  | nil =>
    intro s obj h
    simp [processItems] at h
  | cons it rest ih =>
    intro s obj h
    cases hv : it.validate with
    | error e =>
      simp only [processItems, hv] at h
      have := ih _ obj h
      exact ⟨List.mem_cons_of_mem _ this.1, this.2⟩
    | ok u =>
      cases u
      simp only [processItems, hv] at h
      rcases List.mem_cons.1 h with rfl | h2
      · exact ⟨List.mem_cons_self _ _, hv⟩
      · have := ih _ obj h2
        exact ⟨List.mem_cons_of_mem _ this.1, this.2⟩

/-- findDBDefault over the rows the MySQL port lists: a contained name is
found with the empty owner. -/
theorem findDBDefault_myRows (names : List String) (n : String)
    (hmem : names.contains n = true) :
    findDBDefault (names.map (fun m => { name := m, owner := "" })) n =
      { name := n, owner := "" } := by
  induction names with
  | nil => simp [List.contains_nil] at hmem
  | cons m rest ih =>
    by_cases h : (m == n) = true
    · have : m = n := by simpa using h
      subst this
      simp [findDBDefault]
    · have hm : (m == n) = false := by simpa using h
      have hn : (n == m) = false := by
        rcases Bool.eq_false_iff.1 hm with _
        simp only [beq_eq_false_iff_ne] at hm ⊢
        exact fun hc => hm hc.symm
      rw [List.contains_cons, hn, Bool.false_or] at hmem
      simp only [List.map_cons, findDBDefault, hm, Bool.false_eq_true, if_false]
      exact ih hmem

/-! Claim theorems. -/

/-- C1: against the real PostgreSQL backend, EnsureCreated is not
idempotent as documented. -/
theorem c1_ensureCreated_twice_not_unchanged :
    (ensureCreated pgOps { spec := { database := "shop", owner := "alice" } } pgInit).1
      = .ok .databaseCreated
    ∧ (ensureCreated pgOps { spec := { database := "shop", owner := "alice" } }
        (ensureCreated pgOps { spec := { database := "shop", owner := "alice" } } pgInit).2).1
      = .ok (.ownerChanged "postgres")
    ∧ (ensureCreated pgOps { spec := { database := "shop", owner := "alice" } }
        (ensureCreated pgOps { spec := { database := "shop", owner := "alice" } } pgInit).2).1
      ≠ .ok .alreadyCreated
    ∧ (ensureCreated pgOps { spec := { database := "shop", owner := "alice" } }
        (ensureCreated pgOps { spec := { database := "shop", owner := "alice" } } pgInit).2).2.dbs
      ≠ (ensureCreated pgOps { spec := { database := "shop", owner := "alice" } } pgInit).2.dbs
    ∧ findDB (ensureCreated pgOps { spec := { database := "shop", owner := "alice" } } pgInit).2.dbs "shop"
      = some { name := "shop", owner := "postgres" } := by
  refine ⟨rfl, rfl, ?_, ?_, rfl⟩
  · show (Except.ok (Status.ownerChanged "postgres") : Except String Status)
      ≠ Except.ok Status.alreadyCreated
    simp
  · decide

/-- C2 counterexample: a create failure is not propagated verbatim, it is
returned wrapped with a prefix. -/
theorem c2_create_error_not_verbatim :
    ensureCreated createFailOps { spec := { database := "shop", owner := "alice" } } () =
      (.error "creating database: boom", ())
    ∧ "creating database: boom" ≠ "boom" := by
  refine ⟨rfl, ?_⟩
  decide

/-- C2 amended: full case analysis of EnsureCreated. -/
theorem c2_ensureCreated_cases {σ : Type} (ops : Ops σ) (obj : PostgreSQLConfig)
    (s s1 : σ) (dbs : List Database)
    (hlist : ops.listDatabases s = (.ok dbs, s1)) :
    (findDB dbs obj.spec.database = none →
      (∀ (s2 : σ) (e : String),
        ops.createDatabase obj.spec.database obj.spec.owner s1 = (.error e, s2) →
        ensureCreated ops obj s = (.error ("creating database: " ++ e), s2))
      ∧ (∀ (s2 : σ) (u : Unit),
        ops.createDatabase obj.spec.database obj.spec.owner s1 = (.ok u, s2) →
        ensureCreated ops obj s = (.ok .databaseCreated, s2)))
    ∧ (∀ db, findDB dbs obj.spec.database = some db → db.owner ≠ obj.spec.owner →
      (∀ (s2 : σ) (e : String),
        ops.changeDatabaseOwner obj.spec.database obj.spec.owner s1 = (.error e, s2) →
        ensureCreated ops obj s = (.error ("chaning owner: " ++ e), s2))
      ∧ (∀ (s2 : σ) (u : Unit),
        ops.changeDatabaseOwner obj.spec.database obj.spec.owner s1 = (.ok u, s2) →
        ensureCreated ops obj s = (.ok (.ownerChanged db.owner), s2)))
    ∧ (∀ db, findDB dbs obj.spec.database = some db → db.owner = obj.spec.owner →
      ensureCreated ops obj s = (.ok .alreadyCreated, s1))
    ∧ (∀ (t : PGState) (db : Database),
        findDB t.dbs obj.spec.database = some db → db.owner = obj.spec.owner →
        ensureCreated pgOps obj t = (.ok .alreadyCreated, t)) := by
  refine ⟨?_, ?_, ?_, ?_⟩
  · intro hnone
    constructor
    · intro s2 e hc
      simp only [ensureCreated, hlist, hnone, hc]
    · intro s2 u hc
      simp only [ensureCreated, hlist, hnone, hc]
  · intro db hsome hne
    have hb : (db.owner != obj.spec.owner) = true := by
      simp [bne_iff_ne, hne]
    constructor
    · intro s2 e hc
      simp only [ensureCreated, hlist, hsome, hb, if_true, hc]
    · intro s2 u hc
      simp only [ensureCreated, hlist, hsome, hb, if_true, hc]
  · intro db hsome heq
    have hb : (db.owner != obj.spec.owner) = false := by
      simp [heq]
    simp only [ensureCreated, hlist, hsome, hb, Bool.false_eq_true, if_false]
  · intro t db hsome heq
    have hb : (db.owner != obj.spec.owner) = false := by
      simp [heq]
    simp only [ensureCreated, pgOps, pgListDatabases, hsome, hb, Bool.false_eq_true, if_false]

/-- C2 witness: the create branch taken at a concrete input. -/
theorem c2_ensureCreated_cases_witness :
    ensureCreated pgOps { spec := { database := "shop", owner := "alice" } } pgInit =
      (.ok .databaseCreated,
       { connUser := "postgres", users := ["postgres", "alice"],
         dbs := [{ name := "shop", owner := "postgres" }],
         log := [.createUser "alice", .createDatabase "shop"] }) :=
  ((c2_ensureCreated_cases pgOps _ pgInit pgInit [] rfl).1 rfl).2 _ () rfl

/-- C3: EnsureDeleted is an idempotent no-op on an absent database. -/
theorem c3_ensureDeleted_cases (s : PGState) (obj : PostgreSQLConfig) :
    (hasDatabase obj.spec.database s = false →
      ensureDeleted pgOps obj s = (.ok .alreadyDeleted, s))
    ∧ (hasDatabase obj.spec.database s = true →
      ensureDeleted pgOps obj s =
        (.ok .databaseDeleted, pgExec (.dropDatabase obj.spec.database) s)) := by
  constructor
  · intro habs
    rw [hasDatabase] at habs
    cases hfd : findDB s.dbs obj.spec.database with
    | some db =>
      exfalso
      have hs := findDB_isSome s.dbs obj.spec.database
      rw [hfd, habs] at hs
      simp at hs
    | none =>
      simp only [ensureDeleted, pgOps, pgListDatabases, hfd]
  · intro hpres
    have hsome : (findDB s.dbs obj.spec.database).isSome = true := by
      rw [findDB_isSome]
      exact hpres
    rcases Option.isSome_iff_exists.1 hsome with ⟨db, hdb⟩
    simp only [ensureDeleted, pgOps, pgListDatabases, hdb, pgDeleteDatabase, hpres, if_true]

/-- C3 witness: both branches at concrete inputs. -/
theorem c3_ensureDeleted_cases_witness :
    ensureDeleted pgOps { spec := { database := "shop", owner := "alice" } } pgInit =
      (.ok .alreadyDeleted, pgInit)
    ∧ ensureDeleted pgOps { spec := { database := "shop", owner := "alice" } }
        { connUser := "postgres", users := ["postgres"],
          dbs := [{ name := "shop", owner := "alice" }], log := [] } =
      (.ok .databaseDeleted,
       { connUser := "postgres", users := ["postgres"], dbs := [],
         log := [.dropDatabase "shop"] }) := by
  constructor
  · exact (c3_ensureDeleted_cases pgInit _).1 rfl
  · exact (c3_ensureDeleted_cases _ _).2 rfl

/-- C4: the solution3 stream handler reaches the port with an invalid
record, while the solution1 poll loop and the solution2 stream loop skip
it. -/
theorem c4_validation_gate_broken_in_solution3 :
    Validate { spec := { database := "", owner := "" } } =
      .error "spec is not valid: database is not set"
    ∧ onUpdateFunc pgOps { spec := { database := "", owner := "" } } pgInit =
      { connUser := "postgres", users := ["postgres", ""],
        dbs := [{ name := "", owner := "postgres" }],
        log := [.createUser "", .createDatabase ""] }
    ∧ (onUpdateFunc pgOps { spec := { database := "", owner := "" } } pgInit).log ≠ []
    ∧ processItems pgOps [{ spec := { database := "", owner := "" } }] pgInit = (pgInit, [])
    ∧ eventLoop myOps
        [.recv { type := "ADDED",
                 object := some { spec := { service := "svc", port := 1,
                                            database := "shop", owner := "" } } }]
        { dbNames := [] } = .running { dbNames := [] } := by
  refine ⟨rfl, rfl, ?_, rfl, rfl⟩
  decide



/-- C5: orphan reclamation, concrete scenario and general shape. -/
theorem c5_orphan_reclamation :
    orphanPass pgOps
      [{ name := "A", owner := "alice" }, { name := "B", owner := "bob" },
       { name := "C", owner := "carol" }]
      [{ spec := { database := "A", owner := "alice" } },
       { spec := { database := "C", owner := "carol" } }]
      { connUser := "postgres", users := ["postgres", "alice", "bob", "carol"],
        dbs := [{ name := "A", owner := "alice" }, { name := "B", owner := "bob" },
                { name := "C", owner := "carol" }], log := [] } =
      { connUser := "postgres", users := ["postgres", "alice", "bob", "carol"],
        dbs := [{ name := "A", owner := "alice" }, { name := "C", owner := "carol" }],
        log := [.dropDatabase "B"] }
    ∧ ∀ (s : PGState) (validObjs : List PostgreSQLConfig),
        (orphanPass pgOps s.dbs validObjs s).dbs = s.dbs.filter (keepB validObjs) := by
  constructor
  · rfl
  · intro s validObjs
    rw [orphanPass_pg_dbs]
    apply List.filter_congr
    intro db hdb
    cases hk : keepB validObjs db with
    | false =>
      have hmemn : db.name ∈ orphanNames validObjs s.dbs := by
        simp only [orphanNames, List.mem_map]
        exact ⟨db, List.mem_filter.2 ⟨hdb, by simp [hk]⟩, rfl⟩
      have hc : (orphanNames validObjs s.dbs).contains db.name = true :=
        List.elem_eq_true_of_mem hmemn
      rw [hc]
      rfl
    | true =>
      have hnot : (orphanNames validObjs s.dbs).contains db.name = false := by
        cases hc : (orphanNames validObjs s.dbs).contains db.name with
        | false => rfl
        | true =>
          exfalso
          have hmemn := List.mem_of_elem_eq_true hc
          simp only [orphanNames, List.mem_map] at hmemn
          rcases hmemn with ⟨db2, hdb2, hname⟩
          rcases List.mem_filter.1 hdb2 with ⟨_, hk2⟩
          have : keepB validObjs db2 = keepB validObjs db := by
            simp only [keepB, hname]
          rw [this, hk] at hk2
          simp at hk2
      rw [hnot]
      rfl

/-- C6 counterexample: a database whose record is present but invalid is
deleted by the cycle. -/
theorem c6_invalid_record_db_deleted_concrete :
    cycle pgOps (.ok [{ spec := { database := "shop", owner := "" } }])
      { connUser := "postgres", users := ["postgres"],
        dbs := [{ name := "shop", owner := "alice" }], log := [] } =
      .done { connUser := "postgres", users := ["postgres"], dbs := [],
              log := [.dropDatabase "shop"] } := rfl

/-- C6 amended: a database referenced only by invalid records is orphaned
and removed by the poll cycle. -/
theorem c6_invalid_record_db_deleted (s : PGState) (items : List PostgreSQLConfig)
    (n : String)
    (hpresent : s.dbs.any (fun db => db.name == n) = true)
    (hinvalid : ∀ obj ∈ items, obj.spec.database = n → ∃ e, obj.validate = .error e) :
    ∃ s2 : PGState, cycle pgOps (.ok items) s = .done s2
      ∧ s2.dbs.any (fun db => db.name == n) = false := by
  cases hpi : processItems pgOps items s with
  | mk s1 validObjs =>
  refine ⟨orphanPass pgOps s.dbs validObjs s1, ?_, ?_⟩
  · have hred : cycle pgOps (.ok items) s =
        .done (orphanPass pgOps s.dbs (processItems pgOps items s).2
          (processItems pgOps items s).1) := rfl
    rw [hred, hpi]
  · rw [List.any_eq_false]
    intro db hdb
    rw [orphanPass_pg_dbs] at hdb
    rcases List.mem_filter.1 hdb with ⟨_, hkeep⟩
    intro hq
    have hdbn : db.name = n := by simpa using hq
    have hmemn : n ∈ orphanNames validObjs s.dbs := by
      rcases List.any_eq_true.1 hpresent with ⟨db0, hdb0, hq0⟩
      have hdb0n : db0.name = n := by simpa using hq0
      have hk0 : keepB validObjs db0 = false := by
        cases hk : keepB validObjs db0 with
        | false => rfl
        | true =>
          exfalso
          rcases List.any_eq_true.1 hk with ⟨obj, hobj, hmatch⟩
          have hobj2 : obj ∈ items ∧ obj.validate = .ok () := by
            apply processItems_mem pgOps items s
            rw [hpi]
            exact hobj
          have hmn : obj.spec.database = n := by
            rw [← hdb0n]
            simpa using hmatch
          rcases hinvalid obj hobj2.1 hmn with ⟨e, he⟩
          rw [hobj2.2] at he
          cases he
      simp only [orphanNames, List.mem_map]
      exact ⟨db0, List.mem_filter.2 ⟨hdb0, by simp [hk0]⟩, hdb0n⟩
    rw [hdbn] at hkeep
    have hc : (orphanNames validObjs s.dbs).contains n = true :=
      List.elem_eq_true_of_mem hmemn
    rw [hc] at hkeep
    simp at hkeep

/-- C6 witness: the amended statement at the concrete scenario. -/
theorem c6_invalid_record_db_deleted_witness :
    ∃ s2 : PGState,
      cycle pgOps (.ok [{ spec := { database := "shop", owner := "" } }])
        { connUser := "postgres", users := ["postgres"],
          dbs := [{ name := "shop", owner := "alice" }], log := [] } = .done s2
      ∧ s2.dbs.any (fun db => db.name == "shop") = false := by
  apply c6_invalid_record_db_deleted
  · rfl
  · intro obj hobj _
    rcases List.mem_singleton.1 hobj with rfl
    exact ⟨"spec is not valid: owner is not set", rfl⟩

/-- C7 counterexample: once the watch stream closes, the loop of solution2
returns an error and a later valid event is never dispatched. -/
theorem c7_no_reconnect_concrete :
    eventLoop myOps
      [closedChanRead,
       .recv { type := "ADDED",
               object := some { spec := { service := "svc", port := 1,
                                          database := "shop", owner := "alice" } } }]
      { dbNames := [] } =
      .fatal "wrong type" { dbNames := [] } := rfl

/-- C7 amended: a closed stream is fatal for the loop, for every backend,
remaining input and state; no new subscription is opened. -/
theorem c7_closed_stream_fatal {σ : Type} (ops : Ops σ) (rest : List LoopInput) (s : σ) :
    eventLoop ops (closedChanRead :: rest) s = .fatal "wrong type" s := rfl

/-- C8 counterexample: a transport failure listing the desired records
makes the loop function return an error. -/
theorem c8_transport_error_fatal_concrete :
    cycle pgOps (ListDesiredResult.transportError "connection refused") pgInit =
      .fatal "reconciling: connection refused" := rfl

/-- C8 amended: bad status, bad body and database-listing failures abort
only the cycle, but an HTTP transport failure is fatal. -/
theorem c8_cycle_failure_semantics {σ : Type} (ops : Ops σ) :
    (∀ (s : σ) (e : String), cycle ops (.transportError e) s = .fatal ("reconciling: " ++ e))
    ∧ (∀ (s : σ) (c : Nat), cycle ops (.badStatus c) s = .retry s)
    ∧ (∀ (s : σ) (e : String), cycle ops (.badBody e) s = .retry s)
    ∧ (∀ (s s1 : σ) (e : String) (items : List PostgreSQLConfig),
        ops.listDatabases s = (.error e, s1) → cycle ops (.ok items) s = .retry s1) := by
  refine ⟨fun s e => rfl, fun s c => rfl, fun s e => rfl, fun s s1 e items h => ?_⟩
  simp only [cycle, h]

/-- C8 witness: the database-listing clause at a concrete failing
backend. -/
theorem c8_cycle_failure_semantics_witness :
    cycle (errOps "connection refused") (.ok []) () = .retry () :=
  (c8_cycle_failure_semantics (errOps "connection refused")).2.2.2 () () "connection refused" [] rfl

/-- C9 core step: executing the create statement on a server whose
database set and connection user match those of s yields a database listed
with the connection user as owner. -/
theorem pgExec_create_fresh (s t : PGState) (name : String)
    (hdbs : t.dbs = s.dbs) (hconn : t.connUser = s.connUser)
    (habsent : hasDatabase name s = false) :
    findDB (pgExec (.createDatabase name) t).dbs name =
      some { name := name, owner := s.connUser }
    ∧ (pgExec (.createDatabase name) t).log.contains (SQLStmt.createDatabase name) = true := by
  constructor
  · have hstep : (pgExec (.createDatabase name) t).dbs =
        s.dbs ++ [{ name := name, owner := s.connUser }] := by
      simp [pgExec, hdbs, hconn]
    rw [hstep, findDB_append]
    have hnone : findDB s.dbs name = none := by
      rw [hasDatabase] at habsent
      cases hfd : findDB s.dbs name with
      | some db =>
        exfalso
        have hs := findDB_isSome s.dbs name
        rw [hfd, habsent] at hs
        simp at hs
      | none => rfl
    rw [hnone]
    simp [findDB, Option.or]
  · have hm : SQLStmt.createDatabase name ∈ (pgExec (.createDatabase name) t).log := by
      simp [pgExec]
    exact List.elem_eq_true_of_mem hm

/-- C9: a fresh database is created without an owner clause and is listed
as owned by the connection user. -/
theorem c9_createDatabase_owner_is_conn_user (s : PGState) (name owner : String)
    (habsent : hasDatabase name s = false) :
    ∃ s2 : PGState, pgCreateDatabase name owner s = (.ok (), s2)
      ∧ findDB s2.dbs name = some { name := name, owner := s.connUser }
      ∧ s2.log.contains (SQLStmt.createDatabase name) = true
      ∧ (owner ≠ s.connUser →
          findDB s2.dbs name ≠ some { name := name, owner := owner }) := by
  by_cases hu : hasUser owner s
  · have hred : pgCreateDatabase name owner s =
        (.ok (), pgExec (.createDatabase name) s) := by
      simp only [pgCreateDatabase, hu, if_true, habsent, Bool.false_eq_true, if_false]
    rcases pgExec_create_fresh s s name rfl rfl habsent with ⟨hfind, hlog⟩
    refine ⟨_, hred, hfind, hlog, ?_⟩
    intro hne hfound
    rw [hfind] at hfound
    exact hne (congrArg Database.owner (Option.some.inj hfound)).symm
  · have hu2 : hasUser owner s = false := by
      simpa using hu
    have habs1 : hasDatabase name (pgExec (.createUser owner) s) = false := habsent
    have hred : pgCreateDatabase name owner s =
        (.ok (), pgExec (.createDatabase name) (pgExec (.createUser owner) s)) := by
      simp only [pgCreateDatabase, hu2, Bool.false_eq_true, if_false, habs1]
    rcases pgExec_create_fresh s (pgExec (.createUser owner) s) name rfl rfl habsent with
      ⟨hfind, hlog⟩
    refine ⟨_, hred, hfind, hlog, ?_⟩
    intro hne hfound
    rw [hfind] at hfound
    exact hne (congrArg Database.owner (Option.some.inj hfound)).symm



/-- C9 witness: creating the shop database as alice on a fresh server. -/
theorem c9_createDatabase_owner_is_conn_user_witness :
    ∃ s2 : PGState, pgCreateDatabase "shop" "alice" pgInit = (.ok (), s2)
      ∧ findDB s2.dbs "shop" = some { name := "shop", owner := "postgres" }
      ∧ s2.log.contains (SQLStmt.createDatabase "shop") = true
      ∧ ("alice" ≠ "postgres" →
          findDB s2.dbs "shop" ≠ some { name := "shop", owner := "alice" }) :=
  c9_createDatabase_owner_is_conn_user pgInit "shop" "alice" rfl

/-- C10: against the MySQL port, an existing database with a non-empty
desired owner always takes the change-owner branch, the port call is a
no-op, and repetition never reaches the already-reconciled outcome. -/
theorem c10_mysql_never_unchanged (s : MySQLState) (name owner : String)
    (hmem : s.dbNames.contains name = true)
    (hname : name ≠ "") (howner : owner ≠ "") :
    processUpdate myOps { spec := { database := name, owner := owner } } s =
      (.ok (.ownerChanged ""), s)
    ∧ (∀ k : Nat,
        (processUpdate myOps { spec := { database := name, owner := owner } }
          ((fun t => (processUpdate myOps { spec := { database := name, owner := owner } } t).2)^[k] s)).1
          = .ok (.ownerChanged ""))
    ∧ (∀ (t : MySQLState) (nm ow : String), myChangeDatabaseOwner nm ow t = (.ok (), t))
    ∧ (∀ db ∈ (s.dbNames.map (fun m => { name := m, owner := "" : Database })), db.owner = "") := by
  have hfound := findDBDefault_myRows s.dbNames name hmem
  have hmain : processUpdate myOps { spec := { database := name, owner := owner } } s =
      (.ok (.ownerChanged ""), s) := by
    have hn : (name == "") = false := by simpa using hname
    have ho : (("" : String) != owner) = true := by
      simp only [bne_iff_ne]
      exact fun hc => howner hc.symm
    simp only [processUpdate, myOps, myListDatabases, myChangeDatabaseOwner, hfound, hn,
      Bool.false_eq_true, if_false, ho, if_true]
  refine ⟨hmain, ?_, fun t nm ow => rfl, ?_⟩
  · intro k
    have hfix : (fun t => (processUpdate myOps
        { spec := { database := name, owner := owner } } t).2) s = s := by
      show (processUpdate myOps { spec := { database := name, owner := owner } } s).2 = s
      rw [hmain]
    rw [Function.iterate_fixed hfix k, hmain]
  · intro db hdb
    rcases List.mem_map.1 hdb with ⟨m, _, rfl⟩
    rfl

/-- C10 witness: the shop database with desired owner alice. -/
theorem c10_mysql_never_unchanged_witness :
    processUpdate myOps { spec := { database := "shop", owner := "alice" } }
      { dbNames := ["shop"] } =
      (.ok (.ownerChanged ""), { dbNames := ["shop"] }) :=
  (c10_mysql_never_unchanged { dbNames := ["shop"] } "shop" "alice" rfl
    (by decide) (by decide)).1

end OperatorWorkshop
